import Mathlib

/-!
Verification of the cep-parallel-search repository: a shallow embedding of
the promise race combinator (`src/utils/promiseUtils.js`), the orchestrator
(`src/index.js`, `searchCep`), the provider validation
(`src/utils/providerValidator.js`, `src/services/index.js`), the CEP input
normalisation (`src/utils/cepValidator.js`) and the on-disk TTL cache
(`src/utils/cache.js`), together with theorems settling the frozen claims.

Modelling conventions:
- JavaScript objects used as errors carry their relevant fields (`name`,
  `type`, `message`, `service`, the `instanceof Error` / `instanceof
  ServiceError` facts, and the `errors` array) as structure fields.
- Promise settlement is modelled by an outcome tag plus the wall-clock time
  at which the settlement happens; the race combinator resolves with the
  earliest fulfilment (ties broken by index, matching handler attachment
  order), and aggregates rejections only when every call has rejected.
- The JSON cache document is an association list (JSON object keys are
  unique); a `null`/falsy stored value is `Option.none`, and a missing
  `timestamp` or `data` field is `Option.none` at the field.
- Wall-clock reads (`Date.now()`) are passed explicitly as a `now`
  parameter; deferred `setImmediate` persistence is modelled as having
  completed when the next operation runs.
-/

namespace CepSearch

/-- JavaScript `haystack.includes(needle)`: substring containment,
decided via list infix on the character data. -/
def jsIncludes (haystack needle : String) : Bool :=
  decide (needle.data <:+: haystack.data)

/-- JavaScript `String(x).replace((non-digit)+, empty)`: keep only the
decimal digit characters, as in `removeSpecialCharacters` of
`src/utils/cepValidator.js`. -/
def jsStripNonDigits (s : String) : String :=
  String.mk (s.data.filter Char.isDigit)

/-- JavaScript `s.padStart(n, c)`: left-pad with `c` up to length `n`;
a string already at least `n` long is returned unchanged. -/
def jsPadStart (s : String) (n : Nat) (c : Char) : String :=
  if n ≤ s.data.length then s
  else String.mk (List.replicate (n - s.data.length) c) ++ s

/-- ASCII lowercasing of one character, as `String(p).toLowerCase()` acts
on the ASCII provider names. -/
def jsToLowerChar (c : Char) : Char :=
  if c.isUpper then Char.ofNat (c.toNat + 32) else c

/-- JavaScript `s.toLowerCase()` on ASCII strings. -/
def jsToLower (s : String) : String :=
  String.mk (s.data.map jsToLowerChar)

/-- JavaScript `[...new Set(xs)]`: deduplicate keeping the first
occurrence of each element, in order. -/
def jsSetDedup : List String → List String
  | [] => []
  | x :: xs => x :: jsSetDedup (xs.filter (fun y => y ≠ x))
termination_by l => l.length
decreasing_by
  simp only [List.length_cons]
  exact Nat.lt_succ_of_le (List.length_filter_le _ _)

/-- Fields of a JavaScript object used as an error value or as a
per-provider error-detail object. `isErrorInstance` records
`x instanceof Error`, `isServiceError` records `x instanceof ServiceError`
(`ServiceError` extends `Error` in `src/errors/CepError.js`). Fields the
object does not carry are the empty string / `false`. -/
structure ErrDetail where
  name : String := ""
  typ : String := ""
  message : String := ""
  service : String := ""
  isErrorInstance : Bool := false
  isServiceError : Bool := false
deriving Repr, DecidableEq

/-- A JavaScript error object together with its `errors` array (present on
`ServiceError` and on aggregate errors; empty list when absent). -/
structure JsError extends ErrDetail where
  errors : List ErrDetail := []
deriving Repr, DecidableEq

/-- Normalised CEP payload as produced by a provider's
`normalizeResponse`; fields that can be absent (`undefined`) are
`Option`s. -/
structure Payload where
  cep : Option String := none
  state : Option String := none
  city : Option String := none
  street : Option String := none
  neighborhood : Option String := none
  service : Option String := none
deriving Repr, DecidableEq

/-- A JavaScript value that can win the race inside `searchCep`: either a
provider payload, or (because the per-service `.catch` **returns** an
error-descriptor object instead of re-throwing it) a plain error-detail
object. Either kind can also end up stored in the cache. -/
inductive JsData where
  | payload (p : Payload)
  | errObj (d : ErrDetail)
deriving Repr, DecidableEq

/-- Truthiness of `x?.city` for a value read from the cache: payloads have
a `city` field (truthy when present and non-empty); error-descriptor
objects have none. -/
def cityTruthy : JsData → Bool
  | .payload p => match p.city with
    | some s => s ≠ ""
    | none => false
  | .errObj _ => false

/-! ## Cache model (`src/utils/cache.js`) -/

/-- Model of `CACHE_DURATION_MS = 15 * 24 * 60 * 60 * 1000` (15 days). -/
def CACHE_DURATION_MS : Int := 15 * 24 * 60 * 60 * 1000

/-- One value of the on-disk cache JSON object: `{timestamp, data}`.
A missing `timestamp` field (malformed entry) is `none`; a missing or
`null` `data` field is `none`. -/
structure CacheEntryVal where
  timestamp : Option Int := none
  data : Option JsData := none
deriving Repr, DecidableEq

/-- The parsed cache document: an association list from keys to values; a
stored `null` (falsy) value is `none`. JSON object keys are unique. -/
abbrev Cache : Type := List (String × Option CacheEntryVal)

/-- State of the on-disk cache document: missing file, unreadable or
unparsable file, or a parsed JSON object. -/
inductive DiskState where
  | absent
  | corrupt
  | ok (c : Cache)
deriving DecidableEq

/-- Model of `loadCache`: a missing file or any read/parse error yields the empty
object (the `catch` branch); otherwise the parsed document. The in-memory
shadow and mtime fingerprint only avoid re-reads and never change the
value returned, so they are not part of the model. -/
def loadCache : DiskState → Cache
  | .absent => []
  | .corrupt => []
  | .ok c => c

/-- Model of `getCacheKey(cep)`: strip non-digits of `String(cep)`, left-pad with
zeros to 8, and prefix with `cep_`. -/
def getCacheKey (cep : String) : String :=
  "cep_" ++ jsPadStart (jsStripNonDigits cep) 8 '0'

/-- Model of `getCachedResult(cep)` (lines 111-146 of `src/utils/cache.js`):
`null` on a missing or falsy entry; for an entry with a `timestamp`,
`null` when `now - timestamp >= CACHE_DURATION_MS`, else the stored
`data`. An entry *without* a `timestamp` makes `now - undefined` `NaN`,
every `NaN` comparison is false, and the code falls through to returning
the stored `data`. The deferred background deletion of an expired entry
does not affect the returned value and is not modelled. -/
def getCachedResult (disk : DiskState) (now : Int) (cep : String) : Option JsData :=
  match (loadCache disk).lookup (getCacheKey cep) with
  | none => none
  | some none => none
  | some (some e) =>
    match e.timestamp with
    | some ts => if CACHE_DURATION_MS ≤ now - ts then none else e.data
    | none => e.data

/-- Truthiness test `value && value.timestamp` used by
`cleanExpiredEntries` and `getCacheInfo`: the stored value must be truthy
and its `timestamp` present and non-zero. -/
def entryCounted (v : Option CacheEntryVal) : Bool :=
  match v with
  | none => false
  | some e => match e.timestamp with
    | none => false
    | some ts => ts ≠ 0

/-- Keep-condition of `cleanExpiredEntries`: counted and
`now - timestamp < CACHE_DURATION_MS`. -/
def entryKept (now : Int) (v : Option CacheEntryVal) : Bool :=
  match v with
  | none => false
  | some e => match e.timestamp with
    | none => false
    | some ts => ts ≠ 0 && now - ts < CACHE_DURATION_MS

/-- Model of `cleanExpiredEntries(cache)`: rebuild the object keeping exactly the
entries with a truthy value, a truthy `timestamp`, and age strictly below
the TTL. -/
def cleanExpiredEntries (now : Int) (cache : Cache) : Cache :=
  cache.filter (fun kv => entryKept now kv.2)

/-- Model of `clearCache()`: if the cache file exists, unlink it (`unlinkOk` says
whether the unlink call succeeds; on failure the `catch` returns `false`
and the file stays); with no file present, the body does nothing and
returns `true`. -/
def clearCache (unlinkOk : Bool) (disk : DiskState) : Bool × DiskState :=
  match disk with
  | .absent => (true, .absent)
  | d => if unlinkOk then (true, .absent) else (false, d)

/-- Model of `clearExpiredCache()`: load, clean, return the count of dropped
entries; when something was dropped the cleaned object is persisted by a
deferred background save (modelled as completed). -/
def clearExpiredCache (disk : DiskState) (now : Int) : Nat × DiskState :=
  ((loadCache disk).length - (cleanExpiredEntries now (loadCache disk)).length,
    if 0 < (loadCache disk).length - (cleanExpiredEntries now (loadCache disk)).length
    then .ok (cleanExpiredEntries now (loadCache disk)) else disk)

/-- Result record of `getCacheInfo` (the file-path and estimated-size
fields carry no claim content and are omitted). -/
structure CacheInfo where
  totalEntries : Nat
  validEntries : Nat
  expiredEntries : Nat
deriving Repr, DecidableEq

/-- Model of `getCacheInfo()`: total is the number of keys; entries passing the
`value && value.timestamp` test are split into valid (`age <
CACHE_DURATION_MS`) and expired; entries failing the test are counted in
neither. -/
def getCacheInfo (disk : DiskState) (now : Int) : CacheInfo :=
  { totalEntries := (loadCache disk).length
    validEntries := (loadCache disk).countP (fun kv => entryKept now kv.2)
    expiredEntries :=
      (loadCache disk).countP (fun kv => entryCounted kv.2 && !entryKept now kv.2) }

/-! ## Race combinator model (`src/utils/promiseUtils.js`) -/

/-- Settlement of one promise handed to the race: fulfilled with a value
at wall-clock time `t`, rejected with an error at time `t`, or never
settling. -/
inductive PSettle where
  | fulfilled (t : Nat) (v : JsData)
  | rejected (t : Nat) (e : JsError)
  | forever
deriving Repr, DecidableEq

/-- Outcome of `promiseAny` (the polyfill path, lines 24-81 of
`src/utils/promiseUtils.js`; the environment test `new AggregateError` is
modelled as the constructor being available):
resolution with the first fulfilment and its index; rejection with
`AggregateError([], 'Nenhuma promise fornecida')` on an empty input;
rejection with `AggregateError(realErrors, ...)` when every promise
rejected and some rejection was not cancellation-like; rejection with the
plain `Error('Todas as promises foram canceladas ou rejeitadas')` when
every rejection was cancellation-like; or pending forever. -/
inductive RaceOut where
  | resolved (winner : Nat) (v : JsData)
  | rejectedNoPromises
  | rejectedAgg (realErrors : List JsError)
  | rejectedAllCancelled
  | pending
deriving Repr, DecidableEq

/-- Cancellation-error test of `promiseAny` (lines 55-57):
`error.name === 'AbortError' || error.type === 'aborted' ||
(error instanceof Error && error.message && error.message.includes('cancelada'))`. -/
def isAbortErrPoly (e : JsError) : Bool :=
  e.name = "AbortError" || e.typ = "aborted" ||
    (e.isErrorInstance && e.message ≠ "" && jsIncludes e.message "cancelada")

/-- All fulfilments of the settled calls, with their indexes and times,
in index order. -/
def fulfilments (l : List PSettle) : List (Nat × Nat × JsData) :=
  l.enum.filterMap (fun is =>
    match is.2 with
    | .fulfilled t v => some (is.1, t, v)
    | _ => none)

/-- The fulfilment that happens first in wall-clock time; a tie is broken
towards the lower index (handlers are attached in index order). `none`
when no call fulfils. -/
def firstFulfilled (l : List PSettle) : Option (Nat × Nat × JsData) :=
  (fulfilments l).foldl
    (fun best x =>
      match best with
      | none => some x
      | some b => if x.2.1 < b.2.1 then some x else some b)
    none

/-- Whether a settlement is a rejection. -/
def PSettle.isRejected : PSettle → Bool
  | .rejected _ _ => true
  | _ => false

/-- The sparse `errors` array of the polyfill after filtering out
`undefined` slots: the non-cancellation rejection errors, in index
order. -/
def realErrors (l : List PSettle) : List JsError :=
  l.filterMap (fun s =>
    match s with
    | .rejected _ e => if isAbortErrPoly e then none else some e
    | _ => none)

/-- The `promiseAny` polyfill as a function of the settlements of its
input promises. It resolves as soon as the first fulfilment arrives (a
rejection never resolves the race); it rejects only once every promise
has rejected; with no fulfilment and a never-settling promise it pends
forever. -/
def promiseAnyModel (l : List PSettle) : RaceOut :=
  if l = [] then .rejectedNoPromises
  else
    match firstFulfilled l with
    | some (w, _, v) => .resolved w v
    | none =>
      if l.all PSettle.isRejected then
        match realErrors l with
        | [] => .rejectedAllCancelled
        | es => .rejectedAgg es
      else .pending

/-- The rejection error produced by `withTimeout`'s timer with the message
`parallelWithTimeout` passes for request `i` (0-based): `Requisição (i+1)
excedeu o timeout de (timeoutMs)ms`. -/
def timeoutError (i timeoutMs : Nat) : JsError :=
  { name := "Error"
    message :=
      "Requisição " ++ toString (i + 1) ++ " excedeu o timeout de " ++
        toString timeoutMs ++ "ms"
    isErrorInstance := true }

/-- Model of `withTimeout` as a settlement transformer: a promise settling strictly
before `timeoutMs` keeps its settlement; otherwise the timer rejects the
wrapper with the timeout error at `timeoutMs`. -/
def withTimeoutSettle (timeoutMs i : Nat) : PSettle → PSettle
  | .fulfilled t v => if t < timeoutMs then .fulfilled t v else .rejected timeoutMs (timeoutError i timeoutMs)
  | .rejected t e => if t < timeoutMs then .rejected t e else .rejected timeoutMs (timeoutError i timeoutMs)
  | .forever => .rejected timeoutMs (timeoutError i timeoutMs)

/-- Model of `parallelWithTimeout(promises, timeoutMs, cancelCallbacks)`: wrap each
promise with its own timeout and race them through `promiseAny`. (The
`requestIndex` annotation added on rejection is never read downstream and
is not modelled.) -/
def parallelWithTimeout (l : List PSettle) (timeoutMs : Nat) : RaceOut :=
  promiseAnyModel (l.enum.map (fun is => withTimeoutSettle timeoutMs is.1 is.2))

/-! ## Provider validation (`src/utils/providerValidator.js`,
`src/services/index.js`) -/

/-- Model of `VALID_PROVIDERS = ['brasilapi', 'viacep']`. -/
def VALID_PROVIDERS : List String := ["brasilapi", "viacep"]

/-- Model of `isValidProvider(provider)`. -/
def isValidProvider (provider : String) : Bool :=
  VALID_PROVIDERS.contains provider

/-- Model of `validateProviders(providers)` (the argument is typed as a list, so
the `Array.isArray` guard cannot fire): an empty list is valid; a list
with a name outside `VALID_PROVIDERS` raises `ValidationError('Providers
inválidos: ...')`; a list whose `Set`-deduplication is shorter raises
`ValidationError('Providers duplicados encontrados')`. Errors are the
`(message, errors)` payload of the thrown `ValidationError`. -/
def validateProviders (providers : List String) :
    Except (String × List ErrDetail) Unit :=
  if providers = [] then .ok ()
  else if providers.filter (fun p => !isValidProvider p) ≠ [] then
    .error ("Providers inválidos: " ++
        String.intercalate ", " (providers.filter (fun p => !isValidProvider p)),
      [{ message := "Os seguintes providers são inválidos: " ++
          String.intercalate ", " (providers.filter (fun p => !isValidProvider p)),
         service := "provider_validation" }])
  else if (jsSetDedup providers).length ≠ providers.length then
    .error ("Providers duplicados encontrados",
      [{ message := "A lista de providers contém valores duplicados",
         service := "provider_validation" }])
  else .ok ()

/-- Model of `normalizeProviders(providers)`: empty in, empty out; otherwise
lowercase everything and deduplicate. -/
def normalizeProviders (providers : List String) : List String :=
  if providers = [] then []
  else jsSetDedup (providers.map jsToLower)

/-- Names known to the `createService` factory of
`src/services/index.js`. -/
def FACTORY_NAMES : List String := ["brasilapi", "viacep", "widenet", "correios"]

/-- Model of `getServicesByNames(serviceNames, timeout)`: an empty list yields
`getAllServices` — the full default set `[brasilapi, viacep]` (widenet and
correios are commented out there); otherwise each name the factory knows
becomes a service and unknown names are silently dropped. Services are
represented by their names; the `timeout` is carried by the orchestrator
model instead of the service instance. -/
def getServicesByNames (serviceNames : List String) (timeout : Nat) : List String :=
  if serviceNames = [] then ["brasilapi", "viacep"]
  else serviceNames.filterMap (fun n =>
    if FACTORY_NAMES.contains n then some n else none)

/-! ## CEP normalisation (`src/utils/cepValidator.js`) -/

/-- Raw input to `searchCep`: a string, a number (`String(n)` of an
integer renders as its decimal form, possibly signed), or a value of any
other type. -/
inductive CepInput where
  | str (s : String)
  | num (n : Int)
  | other
deriving Repr, DecidableEq

/-- Whether the raw input passes `validateInputType` (typeof is `string`
or `number`). -/
def isStrOrNum : CepInput → Bool
  | .str _ => true
  | .num _ => true
  | .other => false

/-- Model of `String(x)` followed by `removeSpecialCharacters`: the digits of the
rendered input; the empty string for inputs of invalid type (never used
on that branch). -/
def cepDigits : CepInput → String
  | .str s => jsStripNonDigits s
  | .num n => jsStripNonDigits (toString n)
  | .other => ""

/-- Model of `CEP_SIZE = 8`. -/
def CEP_SIZE : Nat := 8

/-- Model of `leftPadWithZeros(cepCleanValue)`: empty → `ValidationError`; longer
than 8 → `ValidationError`; exactly 8 → unchanged; shorter →
`'0'.repeat(8 - length) + value`. -/
def leftPadWithZeros (s : String) :
    Except (String × List ErrDetail) String :=
  if s.data.length = 0 then
    .error ("CEP não pode estar vazio.",
      [{ message := "CEP informado está vazio após remoção de caracteres especiais.",
         service := "cep_validation" }])
  else if CEP_SIZE < s.data.length then
    .error ("CEP deve conter exatamente " ++ toString CEP_SIZE ++ " caracteres.",
      [{ message := "CEP informado possui " ++ toString s.data.length ++
          " caracteres (máximo: " ++ toString CEP_SIZE ++ ").",
         service := "cep_validation" }])
  else if s.data.length = CEP_SIZE then .ok s
  else .ok (String.mk (List.replicate (CEP_SIZE - s.data.length) '0') ++ s)

/-- Model of `validateInputLength(cepWithLeftPad)`: only a length-8 string passes
(after `leftPadWithZeros` this always holds). -/
def validateInputLength (s : String) :
    Except (String × List ErrDetail) String :=
  if s.data.length = CEP_SIZE then .ok s
  else
    .error ("CEP deve conter exatamente " ++ toString CEP_SIZE ++ " caracteres.",
      [{ message := "CEP informado possui " ++ toString s.data.length ++ " caracteres.",
         service := "cep_validation" }])

/-- Model of `normalizeAndValidateCep(cepRawValue)`: type check, strip non-digits,
left-pad, length check, in that order. -/
def normalizeAndValidateCep (cep : CepInput) :
    Except (String × List ErrDetail) String :=
  if isStrOrNum cep then
    match leftPadWithZeros (cepDigits cep) with
    | .error e => .error e
    | .ok padded => validateInputLength padded
  else
    .error ("CEP deve ser uma string ou número.",
      [{ message := "Tipo de entrada inválido. Use string ou number.",
         service := "cep_validation" }])

/-! ## Orchestrator model (`src/index.js`, `searchCep`) -/

/-- Options of `searchCep` with their defaults. -/
structure SearchOptions where
  timeout : Nat := 30000
  providers : List String := []
  useCache : Bool := true

/-- What one provider call does when invoked for the requested CEP:
resolve with a payload at time `t`, reject with an error at time `t`, or
never settle. The behaviour is the observable outcome of
`service.search(normalizedCep)` for this lookup. -/
inductive CallBehavior where
  | succeeds (t : Nat) (p : Payload)
  | failsWith (t : Nat) (e : JsError)
  | hangs
deriving Repr, DecidableEq

/-- Cancellation test of the per-service `.catch` in `searchCep` (lines
111-112): `error.name === 'AbortError' || error.type === 'aborted' ||
(error instanceof ServiceError && error.message &&
error.message.includes('cancelada'))`. -/
def searchAbortCheck (e : JsError) : Bool :=
  e.name = "AbortError" || e.typ = "aborted" ||
    (e.isServiceError && e.message ≠ "" && jsIncludes e.message "cancelada")

/-- The error-descriptor object the per-service `.catch` **returns** for a
non-cancellation failure: `error.errors[0]` when the error is a
`ServiceError` with a non-empty `errors` array, else `{message:
error.message || 'Erro desconhecido', service: service.name || 'unknown',
type: error.type || 'service_error'}`. -/
def mkServiceErrDescriptor (svcName : String) (e : JsError) : ErrDetail :=
  match (if e.isServiceError then e.errors else []) with
  | d :: _ => d
  | [] =>
    { message := if e.message = "" then "Erro desconhecido" else e.message
      service := if svcName = "" then "unknown" else svcName
      typ := if e.typ = "" then "service_error" else e.typ }

/-- The promise `searchCep` builds for one service (lines 102-131):
success passes through; a cancellation-like failure is re-thrown (the
promise stays rejected); any other failure is **converted into a
fulfilment** carrying the error-descriptor object. -/
def wrapServiceCall (svcName : String) : CallBehavior → PSettle
  | .succeeds t p => .fulfilled t (.payload p)
  | .failsWith t e =>
    if searchAbortCheck e then .rejected t e
    else .fulfilled t (.errObj (mkServiceErrDescriptor svcName e))
  | .hangs => .forever

/-- Result surfaced by `searchCep`: a resolved value, one of the three
error classes (with the thrown message and detail list), or a promise
that never settles. -/
inductive SearchResult where
  | ok (v : JsData)
  | validationErr (message : String) (details : List ErrDetail)
  | serviceErr (message : String) (details : List JsError)
  | timeoutErr (message : String) (details : List JsError)
  | neverSettles
deriving Repr, DecidableEq

/-- Classification of an aggregate failure (lines 176-190 of
`src/index.js`): if every collected entry has a truthy `message`
containing `timeout`, throw `TimeoutError`, else `ServiceError`; both
carry the full collected list. -/
def classifyAggregate (allErrors : List JsError) : SearchResult :=
  if (allErrors.filter
        (fun e => e.message ≠ "" && jsIncludes e.message "timeout")).length =
      allErrors.length then
    .timeoutErr "Todas as requisições excederam o tempo limite" allErrors
  else
    .serviceErr "Todos os serviços de CEP retornaram erro" allErrors

/-- Wrapping of a rejection without an `errors` array (lines 168-172):
`[{message: error.message || 'Erro desconhecido', service: 'unknown'}]`. -/
def wrapPlainError (msg : String) : JsError :=
  { message := if msg = "" then "Erro desconhecido" else msg
    service := "unknown" }

/-- Indexes of the services whose `AbortController.abort()` runs when the
race resolves with winner index `w` out of `n` services: the combined
cancel-callback list is the `n` timeout cancels followed by the `n` abort
callbacks, and the polyfill invokes every callback whose position differs
from `w`; the abort callback of service `i` sits at position `n + i`. -/
def abortedOnWin (n w : Nat) : List Nat :=
  (List.range n).filter (fun i => n + i ≠ w)

/-- Observable outcome of one `searchCep` invocation: the surfaced
result, whether it came from the cache, the names of the services whose
`search` was invoked, and the indexes of the services whose in-flight
request was aborted. -/
structure SearchOutcome where
  result : SearchResult
  fromCache : Bool
  calls : List String
  aborted : List Nat
deriving Repr, DecidableEq

/-- The provider fan-out of `searchCep` once validation and the cache
check are past: resolve the services, reject when none is available,
build the per-service promises, race them with per-call timeouts, and on
rejection collect and classify the errors. -/
def runProviderRace (opts : SearchOptions) (normalizedProviders : List String)
    (behaviorOf : String → CallBehavior) : SearchOutcome :=
  let services := getServicesByNames normalizedProviders opts.timeout
  if services = [] then
    { result := .validationErr "Nenhum serviço disponível para consulta"
        [{ message := "Lista de serviços está vazia", service := "service_validation" }]
      fromCache := false, calls := [], aborted := [] }
  else
    match parallelWithTimeout
        (services.map (fun name => wrapServiceCall name (behaviorOf name)))
        opts.timeout with
    | .resolved w v =>
      { result := .ok v, fromCache := false, calls := services
        aborted := abortedOnWin services.length w }
    | .rejectedAgg es =>
      { result := classifyAggregate es, fromCache := false, calls := services, aborted := [] }
    | .rejectedAllCancelled =>
      { result := classifyAggregate
          [wrapPlainError "Todas as promises foram canceladas ou rejeitadas"]
        fromCache := false, calls := services, aborted := [] }
    | .rejectedNoPromises =>
      { result := classifyAggregate [], fromCache := false, calls := services, aborted := [] }
    | .pending =>
      { result := .neverSettles, fromCache := false, calls := services, aborted := [] }

/-- Model of `searchCep(cep, options)` as a function of the raw input, the options,
the behaviour of each provider for this lookup, the cache file state and
the clock: validate the provider list, normalise the CEP, consult the
cache (a hit is returned only when its `city` is truthy), then fan out to
the providers. The asynchronous cache population on success does not
affect this invocation and is not part of the outcome. -/
def searchCepModel (cep : CepInput) (opts : SearchOptions)
    (behaviorOf : String → CallBehavior) (disk : DiskState) (now : Int) :
    SearchOutcome :=
  match validateProviders opts.providers with
  | .error (m, ds) =>
    { result := .validationErr m ds, fromCache := false, calls := [], aborted := [] }
  | .ok _ =>
    match normalizeAndValidateCep cep with
    | .error (m, ds) =>
      { result := .validationErr m ds, fromCache := false, calls := [], aborted := [] }
    | .ok ncep =>
      match (if opts.useCache then getCachedResult disk now ncep else none) with
      | some d =>
        if cityTruthy d then
          { result := .ok d, fromCache := true, calls := [], aborted := [] }
        else runProviderRace opts (normalizeProviders opts.providers) behaviorOf
      | none => runProviderRace opts (normalizeProviders opts.providers) behaviorOf

/-! ## Supporting lemmas -/

theorem jsSetDedup_length_le (l : List String) : (jsSetDedup l).length ≤ l.length := by
  induction l using jsSetDedup.induct with
  | case1 => simp [jsSetDedup]
  | case2 x xs ih =>
    rw [jsSetDedup]
    simp only [List.length_cons]
    have := List.length_filter_le (fun y => y ≠ x) xs
    omega

theorem jsSetDedup_subset {y : String} {l : List String} (h : y ∈ jsSetDedup l) :
    y ∈ l := by
  induction l using jsSetDedup.induct with
  | case1 => simp [jsSetDedup] at h
  | case2 x xs ih =>
    rw [jsSetDedup] at h
    rcases List.mem_cons.mp h with h1 | h1
    · exact h1 ▸ List.mem_cons_self x xs
    · exact List.mem_cons_of_mem x (List.mem_filter.mp (ih h1)).1

theorem filter_ne_eq_self {x : String} {xs : List String} (hx : x ∉ xs) :
    xs.filter (fun y => y ≠ x) = xs := by
  refine List.filter_eq_self.mpr (fun a ha => ?_)
  simp only [ne_eq, decide_not, Bool.not_eq_true', decide_eq_false_iff_not]
  exact fun e => hx (e ▸ ha)

theorem length_filter_ne_lt_of_mem {x : String} {xs : List String} (h : x ∈ xs) :
    (xs.filter (fun y => y ≠ x)).length < xs.length := by
  refine lt_of_le_of_ne (List.length_filter_le _ _) (fun he => ?_)
  have := List.filter_length_eq_length.mp he x h
  simp at this

theorem jsSetDedup_eq_self_of_nodup {l : List String} (h : l.Nodup) :
    jsSetDedup l = l := by
  induction l using jsSetDedup.induct with
  | case1 => rw [jsSetDedup]
  | case2 x xs ih =>
    rw [jsSetDedup]
    have hx : x ∉ xs := (List.nodup_cons.mp h).1
    rw [filter_ne_eq_self hx] at ih ⊢
    rw [ih ((List.nodup_cons.mp h).2)]

theorem jsSetDedup_length_lt_of_not_nodup {l : List String} (h : ¬ l.Nodup) :
    (jsSetDedup l).length < l.length := by
  induction l using jsSetDedup.induct with
  | case1 => exact absurd List.nodup_nil h
  | case2 x xs ih =>
    rw [jsSetDedup]
    simp only [List.length_cons, Nat.succ_lt_succ_iff]
    by_cases hx : x ∈ xs
    · exact lt_of_le_of_lt (jsSetDedup_length_le _) (length_filter_ne_lt_of_mem hx)
    · have hxs : ¬ xs.Nodup := fun hn => h (List.nodup_cons.mpr ⟨hx, hn⟩)
      rw [filter_ne_eq_self hx] at ih ⊢
      exact ih hxs

theorem jsSetDedup_length_eq_iff {l : List String} :
    (jsSetDedup l).length = l.length ↔ l.Nodup := by
  constructor
  · intro h
    by_contra hn
    exact absurd h (Nat.ne_of_lt (jsSetDedup_length_lt_of_not_nodup hn))
  · intro h
    rw [jsSetDedup_eq_self_of_nodup h]

theorem jsIncludes_timeoutError (i T : Nat) :
    jsIncludes (timeoutError i T).message "timeout" = true := by
  apply decide_eq_true
  show "timeout".data <:+: _
  obtain ⟨s, t, hst⟩ :
      "timeout".data <:+: " excedeu o timeout de ".data := by decide
  refine ⟨("Requisição " ++ toString (i + 1)).data ++ s,
    t ++ (toString T ++ "ms").data, ?_⟩
  simp only [timeoutError, String.data_append, List.append_assoc] at hst ⊢
  rw [← hst]
  simp [List.append_assoc]

theorem mem_realErrors {l : List PSettle} {e : JsError} (h : e ∈ realErrors l) :
    (∃ t, PSettle.rejected t e ∈ l) ∧ isAbortErrPoly e = false := by
  rw [realErrors, List.mem_filterMap] at h
  obtain ⟨s, hs, hg⟩ := h
  cases s with
  | fulfilled t v => simp at hg
  | forever => simp at hg
  | rejected t e2 =>
    by_cases hab : isAbortErrPoly e2 = true
    · simp [hab] at hg
    · simp only [Bool.not_eq_true] at hab
      simp only [hab, Bool.false_eq_true, if_false, Option.some.injEq] at hg
      subst hg
      exact ⟨⟨t, hs⟩, hab⟩

theorem promiseAnyModel_ne_noPromises {l : List PSettle} (h : l ≠ []) :
    promiseAnyModel l ≠ .rejectedNoPromises := by
  rw [promiseAnyModel, if_neg h]
  split
  · simp
  · split
    · split <;> simp
    · simp

theorem promiseAnyModel_rejectedAgg {l : List PSettle} {es : List JsError}
    (h : promiseAnyModel l = .rejectedAgg es) : es = realErrors l ∧ es ≠ [] := by
  rw [promiseAnyModel] at h
  by_cases hl : l = []
  · rw [if_pos hl] at h
    exact absurd h (by simp)
  · rw [if_neg hl] at h
    revert h
    split
    · intro h; exact absurd h (by simp)
    · split
      · split
        · intro h; exact absurd h (by simp)
        · next heq =>
          intro h
          injection h with h2
          exact ⟨h2.symm, fun he => heq (h2.trans he)⟩
      · intro h; exact absurd h (by simp)

theorem abortPoly_of_searchCheck {e : JsError} (h : searchAbortCheck e = true)
    (hwf : e.isServiceError = true → e.isErrorInstance = true) :
    isAbortErrPoly e = true := by
  rw [searchAbortCheck, Bool.or_eq_true, Bool.or_eq_true] at h
  rw [isAbortErrPoly, Bool.or_eq_true, Bool.or_eq_true]
  rcases h with (h | h) | h
  · exact Or.inl (Or.inl h)
  · exact Or.inl (Or.inr h)
  · rw [Bool.and_eq_true, Bool.and_eq_true] at h
    obtain ⟨⟨hsvc, hmsg⟩, hinc⟩ := h
    refine Or.inr ?_
    rw [Bool.and_eq_true, Bool.and_eq_true]
    exact ⟨⟨hwf hsvc, hmsg⟩, hinc⟩

/-- Well-formedness of a provider behaviour: a rejection that claims to be
a `ServiceError` instance is also an `Error` instance (`ServiceError
extends Error`). -/
def behaviorWF (b : CallBehavior) : Prop :=
  ∀ t e, b = .failsWith t e → (e.isServiceError = true → e.isErrorInstance = true)

theorem settled_rejected_shape {services : List String} {bo : String → CallBehavior}
    {T t : Nat} {e : JsError}
    (h : PSettle.rejected t e ∈
      ((services.map (fun n => wrapServiceCall n (bo n))).enum.map
        (fun is => withTimeoutSettle T is.1 is.2))) :
    (∃ i, e = timeoutError i T) ∨
      (∃ n ∈ services, ∃ t0, bo n = .failsWith t0 e ∧ searchAbortCheck e = true) := by
  rw [List.mem_map] at h
  obtain ⟨⟨i, s0⟩, hmem, heq⟩ := h
  have hs0 : s0 ∈ services.map (fun n => wrapServiceCall n (bo n)) := by
    have h2 := List.mem_enum hmem
    rw [h2.2]
    exact List.getElem_mem _
  rw [List.mem_map] at hs0
  obtain ⟨n, hn, hw⟩ := hs0
  cases hb : bo n with
  | succeeds t0 p =>
    rw [hb, wrapServiceCall] at hw
    rw [← hw, withTimeoutSettle] at heq
    by_cases hlt : t0 < T
    · rw [if_pos hlt] at heq; exact absurd heq (by simp)
    · rw [if_neg hlt] at heq
      injection heq with _ h2
      exact Or.inl ⟨i, h2.symm⟩
  | hangs =>
    rw [hb, wrapServiceCall] at hw
    rw [← hw, withTimeoutSettle] at heq
    injection heq with _ h2
    exact Or.inl ⟨i, h2.symm⟩
  | failsWith t0 e0 =>
    rw [hb, wrapServiceCall] at hw
    by_cases hab : searchAbortCheck e0 = true
    · rw [if_pos hab] at hw
      rw [← hw, withTimeoutSettle] at heq
      by_cases hlt : t0 < T
      · rw [if_pos hlt] at heq
        injection heq with _ h2
        exact Or.inr ⟨n, hn, t0, h2 ▸ hb, h2 ▸ hab⟩
      · rw [if_neg hlt] at heq
        injection heq with _ h2
        exact Or.inl ⟨i, h2.symm⟩
    · simp only [Bool.not_eq_true] at hab
      simp only [hab, Bool.false_eq_true, if_false] at hw
      rw [← hw, withTimeoutSettle] at heq
      by_cases hlt : t0 < T
      · rw [if_pos hlt] at heq; exact absurd heq (by simp)
      · rw [if_neg hlt] at heq
        injection heq with _ h2
        exact Or.inl ⟨i, h2.symm⟩

theorem realErrors_all_timeout {services : List String} {bo : String → CallBehavior}
    {T : Nat} (hwf : ∀ n, behaviorWF (bo n)) :
    ∀ e ∈ realErrors ((services.map (fun n => wrapServiceCall n (bo n))).enum.map
      (fun is => withTimeoutSettle T is.1 is.2)), ∃ i, e = timeoutError i T := by
  intro e he
  obtain ⟨⟨t, hmem⟩, hnab⟩ := mem_realErrors he
  rcases settled_rejected_shape hmem with h | ⟨n, _, t0, hb, hab⟩
  · exact h
  · have := abortPoly_of_searchCheck hab (hwf n t0 e hb)
    rw [this] at hnab
    exact absurd hnab (by simp)

theorem classifyAggregate_carries_list (es : List JsError) :
    classifyAggregate es =
        .timeoutErr "Todas as requisições excederam o tempo limite" es ∨
      classifyAggregate es =
        .serviceErr "Todos os serviços de CEP retornaram erro" es := by
  rw [classifyAggregate]
  split
  · exact Or.inl rfl
  · exact Or.inr rfl

theorem classifyAggregate_timeoutErr {es : List JsError} {m : String}
    {ds : List JsError} (h : classifyAggregate es = .timeoutErr m ds) : ds = es := by
  rcases classifyAggregate_carries_list es with h2 | h2 <;> rw [h2] at h
  · injection h with _ h3; exact h3.symm
  · exact absurd h (by simp)

theorem classifyAggregate_serviceErr {es : List JsError} {m : String}
    {ds : List JsError} (h : classifyAggregate es = .serviceErr m ds) :
    ds = es ∧ ∃ e ∈ es, ¬ (e.message ≠ "" && jsIncludes e.message "timeout") = true := by
  rw [classifyAggregate] at h
  revert h
  split
  · intro h; exact absurd h (by simp)
  · next hne =>
    intro h
    injection h with _ h3
    refine ⟨h3.symm, ?_⟩
    by_contra hall
    push_neg at hall
    exact hne (List.filter_length_eq_length.mpr (fun e he => hall e he))

theorem classifyAggregate_not_timeout_of_mem {es : List JsError} {e : JsError}
    (he : e ∈ es) (hnt : jsIncludes e.message "timeout" = false) {m : String}
    {ds : List JsError} (h : classifyAggregate es = .timeoutErr m ds) : False := by
  rw [classifyAggregate] at h
  revert h
  split
  · next hlen =>
    intro _
    have := List.filter_length_eq_length.mp hlen e he
    rw [Bool.and_eq_true] at this
    rw [this.2] at hnt
    exact absurd hnt (by simp)
  · intro h; exact absurd h (by simp)

theorem valid_of_validateProviders {providers : List String}
    (h : validateProviders providers = .ok ()) :
    ∀ p ∈ providers, isValidProvider p = true := by
  intro p hp2
  by_cases hp : providers = []
  · rw [hp] at hp2; simp at hp2
  · by_contra hv
    rw [validateProviders, if_neg hp] at h
    have hmem : p ∈ providers.filter (fun q => !isValidProvider q) := by
      rw [List.mem_filter]
      refine ⟨hp2, ?_⟩
      rw [Bool.eq_false_iff.mpr hv]
      rfl
    rw [if_pos (List.ne_nil_of_mem hmem)] at h
    exact absurd h (by simp)

theorem services_nonempty {providers : List String} {t : Nat}
    (h : validateProviders providers = .ok ()) :
    getServicesByNames (normalizeProviders providers) t ≠ [] := by
  by_cases hp : providers = []
  · rw [normalizeProviders, if_pos hp, getServicesByNames]
    simp
  · have hvalid := valid_of_validateProviders h
    rw [normalizeProviders, if_neg hp]
    have hlow : ∀ y ∈ providers.map jsToLower,
        FACTORY_NAMES.contains y = true := by
      intro y hy
      rw [List.mem_map] at hy
      obtain ⟨p, hpmem, hpy⟩ := hy
      have hv := hvalid p hpmem
      rw [isValidProvider] at hv
      have hv2 : p ∈ VALID_PROVIDERS := by
        rw [← List.elem_iff]
        exact hv
      have hv3 : p = "brasilapi" ∨ p = "viacep" := by
        simpa [VALID_PROVIDERS] using hv2
      rcases hv3 with h1 | h1 <;> subst h1 <;> rw [← hpy] <;> decide
    obtain ⟨q, qs, hq⟩ : ∃ q qs, providers.map jsToLower = q :: qs := by
      cases hm : providers.map jsToLower with
      | nil => rw [List.map_eq_nil_iff] at hm; exact absurd hm hp
      | cons q qs => exact ⟨q, qs, rfl⟩
    rw [hq, jsSetDedup, getServicesByNames, if_neg (by simp)]
    have hqf : FACTORY_NAMES.contains q = true := by
      refine hlow q ?_
      rw [hq]
      exact List.mem_cons_self q qs
    have hqm : q ∈ FACTORY_NAMES := by
      rw [← List.elem_iff]
      exact hqf
    simp [List.filterMap_cons, hqm]

theorem timeoutError_message_cond (i T : Nat) :
    ((timeoutError i T).message ≠ "" &&
      jsIncludes (timeoutError i T).message "timeout") = true := by
  have hinc := jsIncludes_timeoutError i T
  rw [Bool.and_eq_true]
  refine ⟨?_, hinc⟩
  rw [decide_eq_true_eq]
  intro he
  rw [jsIncludes] at hinc
  have hin := of_decide_eq_true hinc
  rw [he] at hin
  have := hin.length_le
  simp at this

theorem wrapped_of_services_ne_nil {services : List String}
    {bo : String → CallBehavior} {T : Nat} (hs : services ≠ []) :
    ((services.map (fun name => wrapServiceCall name (bo name))).enum.map
      (fun is => withTimeoutSettle T is.1 is.2)) ≠ [] := by
  simp only [ne_eq, List.map_eq_nil_iff, List.enum_eq_nil]
  exact hs

theorem runProviderRace_timeoutErr {opts : SearchOptions} {np : List String}
    {bo : String → CallBehavior} (hwf : ∀ n, behaviorWF (bo n)) {m : String}
    {ds : List JsError}
    (h : (runProviderRace opts np bo).result = .timeoutErr m ds) :
    ds ≠ [] ∧ ∀ e ∈ ds, ∃ i, e = timeoutError i opts.timeout := by
  rw [runProviderRace] at h
  by_cases hs : getServicesByNames np opts.timeout = []
  · rw [if_pos hs] at h
    exact absurd h (by simp)
  · rw [if_neg hs] at h
    split at h
    · exact absurd h (by simp)
    · rename_i es heq
      replace h : classifyAggregate es = .timeoutErr m ds := h
      have hds := classifyAggregate_timeoutErr h
      rw [parallelWithTimeout] at heq
      obtain ⟨hes, hne⟩ := promiseAnyModel_rejectedAgg heq
      subst hds
      refine ⟨hne, ?_⟩
      rw [hes]
      exact realErrors_all_timeout hwf
    · replace h : classifyAggregate
          [wrapPlainError "Todas as promises foram canceladas ou rejeitadas"] =
          .timeoutErr m ds := h
      rw [show classifyAggregate
            [wrapPlainError "Todas as promises foram canceladas ou rejeitadas"] =
          .serviceErr "Todos os serviços de CEP retornaram erro"
            [wrapPlainError "Todas as promises foram canceladas ou rejeitadas"]
          from by decide] at h
      exact absurd h (by simp)
    · rename_i heq
      rw [parallelWithTimeout] at heq
      exact absurd heq (promiseAnyModel_ne_noPromises (wrapped_of_services_ne_nil hs))
    · exact absurd h (by simp)

theorem runProviderRace_serviceErr {opts : SearchOptions} {np : List String}
    {bo : String → CallBehavior} {m : String} {ds : List JsError}
    (h : (runProviderRace opts np bo).result = .serviceErr m ds) :
    ∃ e ∈ ds, ¬ ∃ i, e = timeoutError i opts.timeout := by
  rw [runProviderRace] at h
  by_cases hs : getServicesByNames np opts.timeout = []
  · rw [if_pos hs] at h
    exact absurd h (by simp)
  · rw [if_neg hs] at h
    split at h
    · exact absurd h (by simp)
    · rename_i es heq
      replace h : classifyAggregate es = .serviceErr m ds := h
      obtain ⟨hds, e, he, hcond⟩ := classifyAggregate_serviceErr h
      subst hds
      refine ⟨e, he, ?_⟩
      rintro ⟨i, rfl⟩
      exact hcond (timeoutError_message_cond i opts.timeout)
    · replace h : classifyAggregate
          [wrapPlainError "Todas as promises foram canceladas ou rejeitadas"] =
          .serviceErr m ds := h
      obtain ⟨hds, e, he, hcond⟩ := classifyAggregate_serviceErr h
      subst hds
      refine ⟨e, he, ?_⟩
      rintro ⟨i, rfl⟩
      exact hcond (timeoutError_message_cond i opts.timeout)
    · rename_i heq
      rw [parallelWithTimeout] at heq
      exact absurd heq (promiseAnyModel_ne_noPromises (wrapped_of_services_ne_nil hs))
    · exact absurd h (by simp)

theorem searchCepModel_result_cases (x : CepInput) (opts : SearchOptions)
    (bo : String → CallBehavior) (disk : DiskState) (now : Int) :
    (searchCepModel x opts bo disk now).result =
        (runProviderRace opts (normalizeProviders opts.providers) bo).result ∨
      (∃ m ds, (searchCepModel x opts bo disk now).result = .validationErr m ds) ∨
      (∃ d, (searchCepModel x opts bo disk now).result = .ok d) := by
  cases hv : validateProviders opts.providers with
  | error e =>
    obtain ⟨m, ds⟩ := e
    refine Or.inr (Or.inl ⟨m, ds, ?_⟩)
    simp [searchCepModel, hv]
  | ok u =>
    cases hc : normalizeAndValidateCep x with
    | error e =>
      obtain ⟨m, ds⟩ := e
      refine Or.inr (Or.inl ⟨m, ds, ?_⟩)
      simp [searchCepModel, hv, hc]
    | ok ncep =>
      cases hh : (if opts.useCache then getCachedResult disk now ncep else none) with
      | none =>
        refine Or.inl ?_
        simp [searchCepModel, hv, hc, hh]
      | some d =>
        by_cases hcity : cityTruthy d = true
        · refine Or.inr (Or.inr ⟨d, ?_⟩)
          simp [searchCepModel, hv, hc, hh, hcity]
        · refine Or.inl ?_
          simp [searchCepModel, hv, hc, hh, hcity]

theorem runProviderRace_fromCache (opts : SearchOptions) (np : List String)
    (bo : String → CallBehavior) : (runProviderRace opts np bo).fromCache = false := by
  rw [runProviderRace]
  by_cases hs : getServicesByNames np opts.timeout = []
  · rw [if_pos hs]
  · rw [if_neg hs]
    split <;> rfl

theorem runProviderRace_calls_of_ne {opts : SearchOptions} {np : List String}
    {bo : String → CallBehavior} (hs : getServicesByNames np opts.timeout ≠ []) :
    (runProviderRace opts np bo).calls = getServicesByNames np opts.timeout := by
  rw [runProviderRace, if_neg hs]
  split <;> rfl

theorem searchCep_of_validateProviders_error {x : CepInput} {opts : SearchOptions}
    {bo : String → CallBehavior} {disk : DiskState} {now : Int} {m : String}
    {ds : List ErrDetail} (h : validateProviders opts.providers = .error (m, ds)) :
    searchCepModel x opts bo disk now =
      { result := .validationErr m ds, fromCache := false, calls := [], aborted := [] } := by
  simp [searchCepModel, h]

theorem nodup_of_validateProviders {provs : List String}
    (h : validateProviders provs = .ok ()) : provs.Nodup := by
  by_cases hp : provs = []
  · subst hp
    exact List.nodup_nil
  · rw [validateProviders, if_neg hp] at h
    by_cases h1 : provs.filter (fun p => !isValidProvider p) ≠ []
    · rw [if_pos h1] at h
      exact absurd h (by simp)
    · rw [if_neg h1] at h
      by_cases h2 : (jsSetDedup provs).length ≠ provs.length
      · rw [if_pos h2] at h
        exact absurd h (by simp)
      · exact jsSetDedup_length_eq_iff.mp (Decidable.not_not.mp h2)

theorem validateProviders_error_of_bad {provs : List String}
    (h : (∃ p ∈ provs, isValidProvider p = false) ∨ ¬ provs.Nodup) :
    ∃ m ds, validateProviders provs = .error (m, ds) := by
  cases he : validateProviders provs with
  | error e => exact ⟨e.1, e.2, rfl⟩
  | ok u =>
    exfalso
    cases u
    rcases h with ⟨p, hp, hbad⟩ | hnd
    · have := valid_of_validateProviders he p hp
      rw [this] at hbad
      exact absurd hbad (by simp)
    · exact hnd (nodup_of_validateProviders he)

/-- Entries the claim about `getCacheInfo` singles out: a falsy stored
value or a value with no `timestamp` field. -/
def entryFalsyOrNoTimestamp (v : Option CacheEntryVal) : Bool :=
  match v with
  | none => true
  | some e => e.timestamp = none

theorem entry_flags (now : Int) (v : Option CacheEntryVal) :
    (entryFalsyOrNoTimestamp v = true →
      entryKept now v = false ∧ entryCounted v = false) ∧
    (entryKept now v = true → entryCounted v = true) := by
  rcases v with _ | e
  · simp [entryFalsyOrNoTimestamp, entryKept, entryCounted]
  · rcases ht : e.timestamp with _ | ts
    · simp [entryFalsyOrNoTimestamp, entryKept, entryCounted, ht]
    · constructor
      · intro h1
        rw [entryFalsyOrNoTimestamp, ht] at h1
        exact absurd h1 (by simp)
      · intro h2
        rw [entryKept, ht, Bool.and_eq_true] at h2
        rw [entryCounted, ht]
        exact h2.1

/-- Modelled from the spec: an entry is logically expired once
`now - createdAt >= TTL`; an entry without a `createdAt` timestamp has no
age and is not logically expired. -/
def specLogicallyExpired (now : Int) (v : Option CacheEntryVal) : Bool :=
  match v with
  | none => false
  | some e =>
    match e.timestamp with
    | none => false
    | some ts => CACHE_DURATION_MS ≤ now - ts

/-! ## Claim theorems -/

/-- A `ServiceError` rejection of the brasilapi provider (HTTP 500), as
`brasilApiService.search` throws it. -/
def brasilApiHttpError : JsError :=
  { message := "Erro HTTP 500 ao consultar BrasilAPI"
    isErrorInstance := true
    isServiceError := true
    errors := [{ message := "Status 500", service := "brasilapi" }] }

/-- A `ServiceError` rejection of the viacep provider (HTTP 500). -/
def viaCepHttpError : JsError :=
  { message := "Erro HTTP 500 ao consultar ViaCEP"
    isErrorInstance := true
    isServiceError := true
    errors := [{ message := "Status 500", service := "viacep" }] }

/-- A successful viacep payload. -/
def viaCepPayload : Payload :=
  { cep := some "01310100", state := some "SP", city := some "São Paulo"
    street := some "Avenida Paulista", neighborhood := some "Bela Vista"
    service := some "viacep" }

/-- Race scenario with exactly one success: brasilapi fails genuinely
(HTTP 500) at 10ms, viacep succeeds at 50ms. -/
def c1Behavior : String → CallBehavior :=
  fun n =>
    if n = "brasilapi" then .failsWith 10 brasilApiHttpError
    else if n = "viacep" then .succeeds 50 viaCepPayload
    else .hangs

/-- C1: the spec says that with exactly one successful provider call the
lookup resolves with that call's payload. Evaluating the embedded
`searchCep` on two providers where brasilapi fails genuinely at 10ms and
viacep succeeds at 50ms shows the code instead resolves with brasilapi's
error-descriptor object: the per-service `.catch` converts the failure
into a fulfilment, which wins the race before the real success. The
result is not viacep's payload, contradicting `searchCep`'s own
documentation that it resolves with the CEP data and rejects when
services fail. -/
theorem C1_failure_descriptor_wins_race :
    searchCepModel (.str "01310100") { useCache := false } c1Behavior .absent 0 =
      { result := .ok (.errObj { message := "Status 500", service := "brasilapi" })
        fromCache := false
        calls := ["brasilapi", "viacep"]
        aborted := [0, 1] } := by
  decide

/-- Race scenario where every provider call fails genuinely. -/
def c2Behavior : String → CallBehavior :=
  fun n =>
    if n = "brasilapi" then .failsWith 10 brasilApiHttpError
    else if n = "viacep" then .failsWith 20 viaCepHttpError
    else .hangs

/-- C2: the spec says that when all N provider calls fail genuinely the
lookup rejects with an aggregate failure carrying N per-provider detail
entries. Evaluating the embedded `searchCep` on two providers that both
fail with genuine HTTP errors shows the call instead *resolves* with the
first provider's error-descriptor object (the per-service `.catch` turns
every genuine failure into a fulfilment, so the race can never reject
with the aggregate), contradicting the JSDoc `@throws ServiceError se
todos os serviços falharam`. -/
theorem C2_all_failures_still_resolve :
    searchCepModel (.str "01310100") { useCache := false } c2Behavior .absent 0 =
      { result := .ok (.errObj { message := "Status 500", service := "brasilapi" })
        fromCache := false
        calls := ["brasilapi", "viacep"]
        aborted := [0, 1] } := by
  decide

/-- C3: for every aggregate failure surfaced by `searchCep`, a
`TimeoutError` carries a non-empty detail list consisting exclusively of
per-call timeout errors; a `ServiceError` detail list contains at least
one entry that is not a per-call timeout; and the classifier hands the
collected error list to the surfaced error unchanged in both cases. -/
theorem C3_aggregate_classification (x : CepInput) (opts : SearchOptions)
    (bo : String → CallBehavior) (disk : DiskState) (now : Int)
    (hwf : ∀ n, behaviorWF (bo n)) :
    (∀ m ds, (searchCepModel x opts bo disk now).result = .timeoutErr m ds →
      ds ≠ [] ∧ ∀ e ∈ ds, ∃ i, e = timeoutError i opts.timeout) ∧
    (∀ m ds, (searchCepModel x opts bo disk now).result = .serviceErr m ds →
      ∃ e ∈ ds, ¬ ∃ i, e = timeoutError i opts.timeout) ∧
    (∀ es, classifyAggregate es =
        .timeoutErr "Todas as requisições excederam o tempo limite" es ∨
      classifyAggregate es =
        .serviceErr "Todos os serviços de CEP retornaram erro" es) := by
  refine ⟨?_, ?_, classifyAggregate_carries_list⟩
  · intro m ds h
    rcases searchCepModel_result_cases x opts bo disk now with hr | ⟨m2, ds2, h2⟩ | ⟨d, h2⟩
    · rw [hr] at h
      exact runProviderRace_timeoutErr hwf h
    · rw [h2] at h
      exact absurd h (by simp)
    · rw [h2] at h
      exact absurd h (by simp)
  · intro m ds h
    rcases searchCepModel_result_cases x opts bo disk now with hr | ⟨m2, ds2, h2⟩ | ⟨d, h2⟩
    · rw [hr] at h
      exact runProviderRace_serviceErr h
    · rw [h2] at h
      exact absurd h (by simp)
    · rw [h2] at h
      exact absurd h (by simp)

/-- Witness for C3: on two hanging providers with a 100ms timeout the
lookup surfaces `TimeoutError` whose detail list is exactly the two
per-call timeout errors. -/
theorem C3_aggregate_classification_witness :
    (∀ n : String, behaviorWF ((fun _ : String => CallBehavior.hangs) n)) ∧
    ([timeoutError 0 100, timeoutError 1 100] ≠ [] ∧
      ∀ e ∈ [timeoutError 0 100, timeoutError 1 100], ∃ i, e = timeoutError i 100) := by
  have hwf : ∀ n : String, behaviorWF ((fun _ : String => CallBehavior.hangs) n) := by
    intro n t e he
    exact absurd he (by simp)
  refine ⟨hwf, ?_⟩
  exact (C3_aggregate_classification (.str "01310100")
      { timeout := 100, useCache := false } (fun _ => .hangs) .absent 0 hwf).1
    "Todas as requisições excederam o tempo limite"
    [timeoutError 0 100, timeoutError 1 100] (by decide)

/-- C4: a providers list containing an unknown name or a duplicate makes
`searchCep` surface a `ValidationError` with no provider call attempted,
and an empty providers list resolves to the full default provider set,
which is never empty. -/
theorem C4_provider_validation :
    (∀ (x : CepInput) (opts : SearchOptions) (bo : String → CallBehavior)
        (disk : DiskState) (now : Int),
      ((∃ p ∈ opts.providers, isValidProvider p = false) ∨ ¬ opts.providers.Nodup) →
      (∃ m ds, (searchCepModel x opts bo disk now).result = .validationErr m ds) ∧
        (searchCepModel x opts bo disk now).calls = []) ∧
    (∀ t : Nat, getServicesByNames [] t = VALID_PROVIDERS ∧
      getServicesByNames [] t ≠ []) := by
  constructor
  · intro x opts bo disk now hbad
    obtain ⟨m, ds, he⟩ := validateProviders_error_of_bad hbad
    rw [searchCep_of_validateProviders_error he]
    exact ⟨⟨m, ds, rfl⟩, rfl⟩
  · intro t
    constructor
    · simp [getServicesByNames, VALID_PROVIDERS]
    · simp [getServicesByNames]

/-- Witness for C4: the unknown provider name `nope` yields an immediate
`ValidationError` and zero provider calls. -/
theorem C4_provider_validation_witness :
    ((∃ p ∈ ({ providers := ["nope"] } : SearchOptions).providers,
        isValidProvider p = false) ∨
      ¬ ({ providers := ["nope"] } : SearchOptions).providers.Nodup) ∧
    ((∃ m ds, (searchCepModel (.str "01310100") { providers := ["nope"] }
        (fun _ => .hangs) .absent 0).result = .validationErr m ds) ∧
      (searchCepModel (.str "01310100") { providers := ["nope"] }
        (fun _ => .hangs) .absent 0).calls = []) := by
  have hbad : (∃ p ∈ ({ providers := ["nope"] } : SearchOptions).providers,
      isValidProvider p = false) ∨
      ¬ ({ providers := ["nope"] } : SearchOptions).providers.Nodup := by
    refine Or.inl ⟨"nope", ?_, ?_⟩ <;> decide
  exact ⟨hbad, (C4_provider_validation).1 (.str "01310100")
    { providers := ["nope"] } (fun _ => .hangs) .absent 0 hbad⟩

theorem cepDigits_all_digit (x : CepInput) :
    (cepDigits x).data.all Char.isDigit = true := by
  cases x with
  | str s =>
    show (s.data.filter Char.isDigit).all Char.isDigit = true
    rw [List.all_eq_true]
    intro c hc
    exact (List.mem_filter.mp hc).2
  | num n =>
    show ((toString n).data.filter Char.isDigit).all Char.isDigit = true
    rw [List.all_eq_true]
    intro c hc
    exact (List.mem_filter.mp hc).2
  | other => rfl

theorem leftPad_spec_ok {s : String} (h0 : s.data.length ≠ 0)
    (h8 : s.data.length ≤ CEP_SIZE) :
    leftPadWithZeros s = .ok (jsPadStart s CEP_SIZE '0') ∧
      (jsPadStart s CEP_SIZE '0').data.length = CEP_SIZE := by
  rw [leftPadWithZeros, if_neg h0, if_neg (by omega : ¬ CEP_SIZE < s.data.length)]
  by_cases he : s.data.length = CEP_SIZE
  · rw [if_pos he, jsPadStart, if_pos (by omega)]
    exact ⟨rfl, he⟩
  · rw [if_neg he, jsPadStart, if_neg (by omega)]
    refine ⟨rfl, ?_⟩
    rw [String.data_append]
    show (List.replicate (CEP_SIZE - s.data.length) '0' ++ s.data).length = CEP_SIZE
    rw [List.length_append, List.length_replicate]
    omega

/-- C5: `normalizeAndValidateCep` accepts exactly the string/number inputs
whose digit content is non-empty and at most 8 characters, and then
returns those digits left-padded with zeros to exactly 8; it rejects with
a `ValidationError` exactly on an invalid input type, an input empty
after stripping non-digits, or more than 8 digits; every accepted result
has exactly 8 characters, all digits. -/
theorem C5_cep_normalisation (x : CepInput) :
    (∀ s, normalizeAndValidateCep x = .ok s ↔
      (isStrOrNum x = true ∧ (cepDigits x).data.length ≠ 0 ∧
        (cepDigits x).data.length ≤ CEP_SIZE ∧
        s = jsPadStart (cepDigits x) CEP_SIZE '0')) ∧
    ((∃ e, normalizeAndValidateCep x = .error e) ↔
      (isStrOrNum x = false ∨ (cepDigits x).data.length = 0 ∨
        CEP_SIZE < (cepDigits x).data.length)) ∧
    (∀ s, normalizeAndValidateCep x = .ok s →
      s.data.length = CEP_SIZE ∧ s.data.all Char.isDigit = true) := by
  by_cases hty : isStrOrNum x = true
  · by_cases h0 : (cepDigits x).data.length = 0
    · have herr : normalizeAndValidateCep x =
          .error ("CEP não pode estar vazio.",
            [{ message := "CEP informado está vazio após remoção de caracteres especiais.",
               service := "cep_validation" }]) := by
        rw [normalizeAndValidateCep, if_pos hty, leftPadWithZeros, if_pos h0]
      refine ⟨?_, ?_, ?_⟩
      · intro s
        constructor
        · intro hs
          rw [herr] at hs
          exact absurd hs (by simp)
        · rintro ⟨_, hne, _, _⟩
          exact absurd h0 hne
      · constructor
        · intro _
          exact Or.inr (Or.inl h0)
        · intro _
          exact ⟨_, herr⟩
      · intro s hs
        rw [herr] at hs
        exact absurd hs (by simp)
    · by_cases h8 : (cepDigits x).data.length ≤ CEP_SIZE
      · obtain ⟨hok, hlen⟩ := leftPad_spec_ok h0 h8
        have hdone : normalizeAndValidateCep x =
            .ok (jsPadStart (cepDigits x) CEP_SIZE '0') := by
          rw [normalizeAndValidateCep, if_pos hty, hok]
          show validateInputLength (jsPadStart (cepDigits x) CEP_SIZE '0') = _
          rw [validateInputLength, if_pos hlen]
        refine ⟨?_, ?_, ?_⟩
        · intro s
          constructor
          · intro hs
            rw [hdone] at hs
            injection hs with h2
            exact ⟨hty, h0, h8, h2.symm⟩
          · rintro ⟨_, _, _, hs⟩
            rw [hdone, hs]
        · constructor
          · rintro ⟨e, he⟩
            rw [hdone] at he
            exact absurd he (by simp)
          · rintro (h1 | h1 | h1)
            · exact absurd hty (by simp [h1])
            · exact absurd h1 h0
            · omega
        · intro s hs
          rw [hdone] at hs
          injection hs with h2
          subst h2
          refine ⟨hlen, ?_⟩
          rw [jsPadStart]
          by_cases hp : CEP_SIZE ≤ (cepDigits x).data.length
          · rw [if_pos hp]
            exact cepDigits_all_digit x
          · rw [if_neg hp, String.data_append]
            show (List.replicate (CEP_SIZE - (cepDigits x).data.length) '0' ++
              (cepDigits x).data).all Char.isDigit = true
            rw [List.all_append, Bool.and_eq_true]
            refine ⟨?_, cepDigits_all_digit x⟩
            rw [List.all_eq_true]
            intro c hc
            rw [(List.mem_replicate.mp hc).2]
            decide
      · have h8b : CEP_SIZE < (cepDigits x).data.length := by omega
        have herr : normalizeAndValidateCep x =
            .error ("CEP deve conter exatamente " ++ toString CEP_SIZE ++ " caracteres.",
              [{ message := "CEP informado possui " ++
                  toString (cepDigits x).data.length ++ " caracteres (máximo: " ++
                  toString CEP_SIZE ++ ").",
                 service := "cep_validation" }]) := by
          rw [normalizeAndValidateCep, if_pos hty, leftPadWithZeros, if_neg h0,
            if_pos h8b]
        refine ⟨?_, ?_, ?_⟩
        · intro s
          constructor
          · intro hs
            rw [herr] at hs
            exact absurd hs (by simp)
          · rintro ⟨_, _, hle, _⟩
            omega
        · constructor
          · intro _
            exact Or.inr (Or.inr h8b)
          · intro _
            exact ⟨_, herr⟩
        · intro s hs
          rw [herr] at hs
          exact absurd hs (by simp)
  · have hf : isStrOrNum x = false := Bool.eq_false_iff.mpr hty
    have herr : normalizeAndValidateCep x =
        .error ("CEP deve ser uma string ou número.",
          [{ message := "Tipo de entrada inválido. Use string ou number.",
             service := "cep_validation" }]) := by
      rw [normalizeAndValidateCep, if_neg hty]
    refine ⟨?_, ?_, ?_⟩
    · intro s
      constructor
      · intro hs
        rw [herr] at hs
        exact absurd hs (by simp)
      · rintro ⟨h1, _⟩
        exact absurd h1 hty
    · constructor
      · intro _
        exact Or.inl hf
      · intro _
        exact ⟨_, herr⟩
    · intro s hs
      rw [herr] at hs
      exact absurd hs (by simp)

/-- A cache state holding one malformed entry for key `cep_01310100`: a
stored value with a `data` payload but no `timestamp` field. -/
def c6Disk : DiskState :=
  .ok [("cep_01310100",
    some { timestamp := none, data := some (.payload { city := some "São Paulo" }) })]

/-- C6 counterexample: the claim states that a non-empty return from
`getCachedResult` implies the stored entry's age is strictly below the
TTL. On an entry with no `timestamp` field the age computation is
`now - undefined = NaN`, every comparison with `NaN` is false, and the
code returns the stored data anyway: here `getCachedResult` returns the
payload although the entry has no timestamp, hence no age below the TTL. -/
theorem C6_counterexample_missing_timestamp :
    getCachedResult c6Disk 0 "01310100" =
        some (.payload { city := some "São Paulo" }) ∧
      (loadCache c6Disk).lookup (getCacheKey "01310100") =
        some (some { timestamp := none
                     data := some (.payload { city := some "São Paulo" }) }) := by
  decide

/-- C6 (amended): `getCachedResult` never raises (it is total); it returns
empty on an unreadable or unparsable cache file, on a missing or falsy
entry, and on an entry whose `timestamp` gives an age of at least the
15-day TTL; a non-empty return comes from a present entry whose stored
`data` is the returned value and whose age, **whenever the entry carries a
timestamp**, is strictly below the TTL (an entry with no timestamp is
returned without any age bound — the deviation the counterexample
exhibits). -/
theorem C6_get_contract (disk : DiskState) (now : Int) (cep : String) :
    (disk = .absent ∨ disk = .corrupt → getCachedResult disk now cep = none) ∧
    ((loadCache disk).lookup (getCacheKey cep) = none →
      getCachedResult disk now cep = none) ∧
    ((loadCache disk).lookup (getCacheKey cep) = some none →
      getCachedResult disk now cep = none) ∧
    (∀ e ts, (loadCache disk).lookup (getCacheKey cep) = some (some e) →
      e.timestamp = some ts → CACHE_DURATION_MS ≤ now - ts →
      getCachedResult disk now cep = none) ∧
    (∀ d, getCachedResult disk now cep = some d →
      ∃ e, (loadCache disk).lookup (getCacheKey cep) = some (some e) ∧
        e.data = some d ∧
        ∀ ts, e.timestamp = some ts → now - ts < CACHE_DURATION_MS) := by
  refine ⟨?_, ?_, ?_, ?_, ?_⟩
  · rintro (rfl | rfl) <;> rfl
  · intro h
    rw [getCachedResult, h]
  · intro h
    rw [getCachedResult, h]
  · intro e ts h1 h2 h3
    simp only [getCachedResult, h1, h2]
    rw [if_pos h3]
  · intro d hd
    rw [getCachedResult] at hd
    cases hl : (loadCache disk).lookup (getCacheKey cep) with
    | none =>
      rw [hl] at hd
      exact absurd hd (by simp)
    | some v =>
      cases v with
      | none =>
        rw [hl] at hd
        exact absurd hd (by simp)
      | some e =>
        simp only [hl] at hd
        refine ⟨e, rfl, ?_⟩
        cases ht : e.timestamp with
        | none =>
          simp only [ht] at hd
          refine ⟨hd, ?_⟩
          intro ts hts
          exact absurd hts (by simp)
        | some ts =>
          simp only [ht] at hd
          by_cases hex : CACHE_DURATION_MS ≤ now - ts
          · rw [if_pos hex] at hd
            exact absurd hd (by simp)
          · rw [if_neg hex] at hd
            refine ⟨hd, ?_⟩
            intro ts2 hts2
            injection hts2 with h2
            subst h2
            omega

/-- A cache state holding one fresh, well-formed entry. -/
def c6FreshDisk : DiskState :=
  .ok [("cep_01310100",
    some { timestamp := some 5, data := some (.payload { city := some "X" }) })]

/-- Witness for C6 (amended): a missing file yields an empty return, and a
fresh hit at `now = 10` returns the stored payload of an entry whose age
is below the TTL. -/
theorem C6_get_contract_witness :
    getCachedResult .absent 0 "01310100" = none ∧
    (∃ e, (loadCache c6FreshDisk).lookup (getCacheKey "01310100") = some (some e) ∧
      e.data = some (.payload { city := some "X" }) ∧
      ∀ ts, e.timestamp = some ts → (10 : Int) - ts < CACHE_DURATION_MS) := by
  constructor
  · exact (C6_get_contract .absent 0 "01310100").1 (Or.inl rfl)
  · exact (C6_get_contract c6FreshDisk 10 "01310100").2.2.2.2
      (.payload { city := some "X" }) (by decide)

/-- C7: `clearCache` removes the on-disk cache document whenever it
reports success, and a second call in a row — with the document already
gone — is safe (the function is total, hence never raises), still reports
success, and leaves the document absent. -/
theorem C7_clearCache_idempotent (u : Bool) (d : DiskState)
    (h : (clearCache u d).1 = true) :
    (clearCache u d).2 = .absent ∧
      ∀ u2, clearCache u2 (clearCache u d).2 = (true, .absent) := by
  cases d with
  | absent => exact ⟨rfl, fun _ => rfl⟩
  | corrupt =>
    cases u with
    | true => exact ⟨rfl, fun _ => rfl⟩
    | false => simp [clearCache] at h
  | ok c =>
    cases u with
    | true => exact ⟨rfl, fun _ => rfl⟩
    | false => simp [clearCache] at h

/-- Witness for C7: clearing an existing document succeeds, removes it,
and clearing again still returns `true`. -/
theorem C7_clearCache_idempotent_witness :
    (clearCache true (.ok [])).1 = true ∧
    ((clearCache true (.ok [])).2 = .absent ∧
      ∀ u2, clearCache u2 (clearCache true (.ok [])).2 = (true, .absent)) :=
  ⟨rfl, C7_clearCache_idempotent true (.ok []) rfl⟩

/-- C8 counterexample: the claim states `clearExpiredCache` returns
exactly the number of logically-expired entries it drops. On a cache
whose only entry is a falsy (`null`) value, the sweep drops it and
returns 1, yet zero entries are logically expired in the spec's sense
(`now - createdAt >= TTL`). -/
theorem C8_counterexample_malformed_counted :
    (clearExpiredCache (.ok [("k", none)]) 0).1 = 1 ∧
      (loadCache (.ok [("k", none)])).countP
        (fun kv => specLogicallyExpired 0 kv.2) = 0 := by
  decide

/-- C8 (amended): `clearExpiredCache` returns exactly the number of
entries it drops — those with a falsy value, a falsy or missing
timestamp, or an age at or beyond the TTL (not only the logically-expired
ones, as the counterexample shows); the dropped and kept entries
partition the cache; and after the deferred save completes a subsequent
`getCacheInfo` reflects only the kept entries: its total equals the kept
count, all of them valid, none expired. -/
theorem C8_sweep_contract (disk : DiskState) (now : Int) :
    (clearExpiredCache disk now).1 =
        (loadCache disk).countP (fun kv => !entryKept now kv.2) ∧
      (clearExpiredCache disk now).1 +
          (cleanExpiredEntries now (loadCache disk)).length =
        (loadCache disk).length ∧
      getCacheInfo (clearExpiredCache disk now).2 now =
        { totalEntries := (cleanExpiredEntries now (loadCache disk)).length
          validEntries := (cleanExpiredEntries now (loadCache disk)).length
          expiredEntries := 0 } := by
  have hc : ∀ c : Cache,
      c.countP (fun kv => entryKept now kv.2) +
        c.countP (fun kv => !entryKept now kv.2) = c.length := by
    intro c
    induction c with
    | nil => simp
    | cons kv c ih =>
      rw [List.countP_cons, List.countP_cons, List.length_cons]
      cases hk : entryKept now kv.2 <;> simp [hk] <;> omega
  have hlen : (cleanExpiredEntries now (loadCache disk)).length =
      (loadCache disk).countP (fun kv => entryKept now kv.2) := by
    rw [cleanExpiredEntries, ← List.countP_eq_length_filter]
  have hfle := List.length_filter_le (fun kv => entryKept now kv.2) (loadCache disk)
  refine ⟨?_, ?_, ?_⟩
  · simp only [clearExpiredCache]
    rw [hlen]
    have := hc (loadCache disk)
    omega
  · simp only [clearExpiredCache]
    rw [hlen]
    have := hc (loadCache disk)
    omega
  · have hall : ∀ kv ∈ cleanExpiredEntries now (loadCache disk),
        entryKept now kv.2 = true :=
      fun kv hkv => (List.mem_filter.mp hkv).2
    by_cases hrem :
        0 < (loadCache disk).length - (cleanExpiredEntries now (loadCache disk)).length
    · have hsnd : (clearExpiredCache disk now).2 =
          .ok (cleanExpiredEntries now (loadCache disk)) := by
        simp only [clearExpiredCache]
        rw [if_pos hrem]
      have hv : (cleanExpiredEntries now (loadCache disk)).countP
          (fun kv => entryKept now kv.2) =
          (cleanExpiredEntries now (loadCache disk)).length :=
        List.countP_eq_length.mpr hall
      have he0 : (cleanExpiredEntries now (loadCache disk)).countP
          (fun kv => entryCounted kv.2 && !entryKept now kv.2) = 0 := by
        refine List.countP_eq_zero.mpr (fun kv hkv hcontra => ?_)
        rw [Bool.and_eq_true] at hcontra
        rw [hall kv hkv] at hcontra
        simp at hcontra
      rw [hsnd]
      simp only [getCacheInfo, show ∀ c : Cache, loadCache (.ok c) = c from fun _ => rfl]
      rw [hv, he0]
    · have hsnd : (clearExpiredCache disk now).2 = disk := by
        simp only [clearExpiredCache]
        rw [if_neg hrem]
      have hfle2 : (cleanExpiredEntries now (loadCache disk)).length ≤
          (loadCache disk).length := by
        rw [cleanExpiredEntries]
        exact hfle
      have heq : (cleanExpiredEntries now (loadCache disk)).length =
          (loadCache disk).length := by
        omega
      have hallc : ∀ kv ∈ loadCache disk, entryKept now kv.2 = true := by
        rw [cleanExpiredEntries] at heq
        exact List.filter_length_eq_length.mp heq
      have hfc : cleanExpiredEntries now (loadCache disk) = loadCache disk := by
        rw [cleanExpiredEntries]
        exact List.filter_eq_self.mpr hallc
      have hv : (loadCache disk).countP (fun kv => entryKept now kv.2) =
          (loadCache disk).length := List.countP_eq_length.mpr hallc
      have he0 : (loadCache disk).countP
          (fun kv => entryCounted kv.2 && !entryKept now kv.2) = 0 := by
        refine List.countP_eq_zero.mpr (fun kv hkv hcontra => ?_)
        rw [Bool.and_eq_true] at hcontra
        rw [hallc kv hkv] at hcontra
        simp at hcontra
      rw [hsnd, hfc]
      simp only [getCacheInfo]
      rw [hv, he0]

/-- C9: with caching enabled, `searchCep` returns a cached value only when
that value has a truthy `city` field, and a cached entry whose stored
value lacks a truthy `city` is ignored even though `getCachedResult`
returns it: the lookup is not served from the cache and provider calls
are made. -/
theorem C9_cache_hit_requires_city (x : CepInput) (opts : SearchOptions)
    (bo : String → CallBehavior) (disk : DiskState) (now : Int)
    (huc : opts.useCache = true) :
    ((searchCepModel x opts bo disk now).fromCache = true →
      ∃ ncep d, normalizeAndValidateCep x = .ok ncep ∧
        getCachedResult disk now ncep = some d ∧ cityTruthy d = true ∧
        (searchCepModel x opts bo disk now).result = .ok d) ∧
    (∀ ncep d, validateProviders opts.providers = .ok () →
      normalizeAndValidateCep x = .ok ncep →
      getCachedResult disk now ncep = some d →
      cityTruthy d = false →
      (searchCepModel x opts bo disk now).fromCache = false ∧
        (searchCepModel x opts bo disk now).calls ≠ []) := by
  constructor
  · intro hfc
    cases hv : validateProviders opts.providers with
    | error e =>
      obtain ⟨m, ds⟩ := e
      rw [searchCep_of_validateProviders_error hv] at hfc
      exact absurd hfc (by simp)
    | ok u =>
      cases u
      cases hcv : normalizeAndValidateCep x with
      | error e =>
        obtain ⟨m, ds⟩ := e
        have hvv : searchCepModel x opts bo disk now =
            { result := .validationErr m ds, fromCache := false
              calls := [], aborted := [] } := by
          simp [searchCepModel, hv, hcv]
        rw [hvv] at hfc
        exact absurd hfc (by simp)
      | ok ncep =>
        cases hg : getCachedResult disk now ncep with
        | none =>
          have hred : searchCepModel x opts bo disk now =
              runProviderRace opts (normalizeProviders opts.providers) bo := by
            simp [searchCepModel, hv, hcv, huc, hg]
          rw [hred, runProviderRace_fromCache] at hfc
          exact absurd hfc (by simp)
        | some d =>
          by_cases hcity : cityTruthy d = true
          · refine ⟨ncep, d, rfl, hg, hcity, ?_⟩
            simp [searchCepModel, hv, hcv, huc, hg, hcity]
          · have hred : searchCepModel x opts bo disk now =
                runProviderRace opts (normalizeProviders opts.providers) bo := by
              simp [searchCepModel, hv, hcv, huc, hg, hcity]
            rw [hred, runProviderRace_fromCache] at hfc
            exact absurd hfc (by simp)
  · intro ncep d hv hcv hg hcity
    have hred : searchCepModel x opts bo disk now =
        runProviderRace opts (normalizeProviders opts.providers) bo := by
      simp [searchCepModel, hv, hcv, huc, hg, hcity]
    have hserv := services_nonempty (t := opts.timeout) hv
    rw [hred]
    refine ⟨runProviderRace_fromCache _ _ _, ?_⟩
    rw [runProviderRace_calls_of_ne hserv]
    exact hserv

/-- A cache state whose entry for `cep_01310100` is fresh but stores a
cached error-descriptor object, which has no `city` field. -/
def c9Disk : DiskState :=
  .ok [("cep_01310100",
    some { timestamp := some 1
           data := some (.errObj { message := "Erro HTTP 500", service := "brasilapi" }) })]

/-- Witness for C9: a fresh cached error-descriptor (no `city`) is
ignored and the two default providers are called. -/
theorem C9_cache_hit_requires_city_witness :
    ({} : SearchOptions).useCache = true ∧
    ((searchCepModel (.str "01310100") {} (fun _ => .hangs) c9Disk 5).fromCache = false ∧
      (searchCepModel (.str "01310100") {} (fun _ => .hangs) c9Disk 5).calls ≠ []) := by
  refine ⟨rfl, ?_⟩
  exact (C9_cache_hit_requires_city (.str "01310100") {} (fun _ => .hangs)
      c9Disk 5 rfl).2
    "01310100" (.errObj { message := "Erro HTTP 500", service := "brasilapi" })
    rfl rfl (by decide) (by decide)

/-- C10: `getCacheInfo` counts every key in `totalEntries`, while
`validEntries` and `expiredEntries` only cover entries with a truthy value
and a truthy timestamp, so `validEntries + expiredEntries ≤ totalEntries`;
entries whose value is falsy or lacks a `timestamp` field are counted in
the total but contribute to neither bucket. -/
theorem C10_cacheInfo_partition (disk : DiskState) (now : Int) :
    (getCacheInfo disk now).validEntries + (getCacheInfo disk now).expiredEntries ≤
        (getCacheInfo disk now).totalEntries ∧
      (getCacheInfo disk now).validEntries + (getCacheInfo disk now).expiredEntries +
          (loadCache disk).countP (fun kv => entryFalsyOrNoTimestamp kv.2) ≤
        (getCacheInfo disk now).totalEntries := by
  have key : ∀ c : Cache,
      c.countP (fun kv => entryKept now kv.2) +
        c.countP (fun kv => entryCounted kv.2 && !entryKept now kv.2) +
        c.countP (fun kv => entryFalsyOrNoTimestamp kv.2) ≤ c.length := by
    intro c
    induction c with
    | nil => simp
    | cons kv c ih =>
      rw [List.countP_cons, List.countP_cons, List.countP_cons, List.length_cons]
      have hf := entry_flags now kv.2
      by_cases h1 : entryFalsyOrNoTimestamp kv.2 = true
      · obtain ⟨ha, hb⟩ := hf.1 h1
        rw [h1, ha, hb]
        simp
        omega
      · by_cases h2 : entryKept now kv.2 = true
        · have h3 := hf.2 h2
          rw [h2, h3, Bool.eq_false_iff.mpr h1]
          simp
          omega
        · rw [Bool.eq_false_iff.mpr h2, Bool.eq_false_iff.mpr h1]
          by_cases h3 : entryCounted kv.2 = true
          · rw [h3]
            simp
            omega
          · rw [Bool.eq_false_iff.mpr h3]
            simp
            omega
  have h := key (loadCache disk)
  constructor
  · simp only [getCacheInfo]
    omega
  · simp only [getCacheInfo]
    omega

end CepSearch
